import Mathlib

/-!
# Cinnarito — verification of the growth/leveling state machine and its
persistence contract

Shallow embedding of the Cinnarito game server's core logic:

* `src/shared/constants.ts` — `GAME_CONFIG` (multipliers, thresholds, limits)
* `src/shared/utils/growth.ts` — `calculateGrowth`, `calculateTreeLevel`
* `GrowthCalculationService` — `calculateGrowth` (rounded), `calculateTreeLevel`
* `RedisGameService` — game state CRUD, action history, retry wrapper
* `PlayerResourceService` — cinnamon earn/spend with validation
* `ChronicleGenerationService.processTemplate` — `{{dotted.path}}` substitution

JavaScript numbers are modelled as exact rationals (`ℚ`); the key-value store
is modelled as functions from string keys to optional records; thrown errors
are modelled with `Except`; the fixed 3-attempt retry loop is modelled
explicitly, reporting the number of attempts made and the backoff delays slept.
-/

set_option autoImplicit false

namespace Cinnarito

/-! ## GAME_CONFIG constants (src/shared/constants.ts) -/

/-- `GAME_CONFIG.TREE_LEVELS`, in object-insertion order:
SEEDLING, SAPLING, YOUNG_TREE, MATURE_TREE, ANCIENT_TREE, SPIRIT_TREE,
each as `(level, growthRequired)`. -/
def treeLevels : List (ℕ × ℚ) :=
  [(1, 0), (2, 50), (3, 150), (4, 300), (5, 500), (6, 1000)]

/-- `GAME_CONFIG.RESOURCE_COSTS` by action name (plant, feed, charge, post). -/
def RESOURCE_COSTS_PLANT_SEED : ℚ := 5
def RESOURCE_COSTS_FEED_SPIRIT : ℚ := 3
def RESOURCE_COSTS_CHARGE_ROBOT : ℚ := 10
def RESOURCE_COSTS_POST_UPDATE : ℚ := 0

/-- `GAME_CONFIG.RESOURCE_REWARDS.STARTING_CINNAMON`. -/
def STARTING_CINNAMON : ℚ := 10
/-- `GAME_CONFIG.RESOURCE_REWARDS.UPVOTE_CINNAMON`. -/
def UPVOTE_CINNAMON : ℚ := 0.1
/-- `GAME_CONFIG.RESOURCE_REWARDS.DAILY_BONUS`. -/
def DAILY_BONUS : ℚ := 5
/-- `GAME_CONFIG.LIMITS.MAX_CINNAMON`. -/
def MAX_CINNAMON : ℚ := 10000

/-! ## Growth engine (src/shared/utils/growth.ts) -/

/-- `calculateGrowth` from `src/shared/utils/growth.ts`: the four-term linear
formula with the `GROWTH_MULTIPLIERS` constants; the shared utility performs
no rounding. -/
def calculateGrowth (seedsPlanted spiritsFed robotCharged redditUpvotes : ℕ) : ℚ :=
  (seedsPlanted : ℚ) * 1.5 +
  (spiritsFed : ℚ) * 2 +
  (robotCharged : ℚ) * 3 +
  (redditUpvotes : ℚ) * 0.1

/-- `calculateTreeLevel` from `src/shared/utils/growth.ts`: cascading
`if (totalGrowth >= threshold) return level` checks from SPIRIT_TREE down,
defaulting to SEEDLING's level. -/
def calculateTreeLevel (totalGrowth : ℚ) : ℕ :=
  if 1000 ≤ totalGrowth then 6
  else if 500 ≤ totalGrowth then 5
  else if 300 ≤ totalGrowth then 4
  else if 150 ≤ totalGrowth then 3
  else if 50 ≤ totalGrowth then 2
  else 1

namespace GrowthCalculationService

/-- JavaScript `Math.round` on the exact value: round half toward `+∞`,
i.e. `⌊x + 1/2⌋`. -/
def jsRound (q : ℚ) : ℤ := ⌊q + 1 / 2⌋

/-- `Math.round(growth * 100) / 100` — round to 2 decimal places, half-up. -/
def round2 (q : ℚ) : ℚ := (jsRound (q * 100) : ℚ) / 100

/-- `GrowthCalculationService.calculateGrowth`: same linear formula as the
shared utility, then rounded to 2 decimal places. -/
def calculateGrowth (seedsPlanted spiritsFed robotCharged redditUpvotes : ℕ) : ℚ :=
  round2 ((seedsPlanted : ℚ) * 1.5 +
    (spiritsFed : ℚ) * 2 +
    (robotCharged : ℚ) * 3 +
    (redditUpvotes : ℚ) * 0.1)

/-- `Object.values(GAME_CONFIG.TREE_LEVELS)` sorted by `growthRequired`
descending, as produced by the `sort((a, b) => b.growthRequired - a.growthRequired)`
call in `GrowthCalculationService.calculateTreeLevel`. -/
def sortedLevelsDesc : List (ℕ × ℚ) :=
  [(6, 1000), (5, 500), (4, 300), (3, 150), (2, 50), (1, 0)]

/-- `GrowthCalculationService.calculateTreeLevel`: walk the descending-sorted
levels, return the first whose threshold is met, defaulting to seedling. -/
def calculateTreeLevel (totalGrowth : ℚ) : ℕ :=
  match sortedLevelsDesc.find? (fun lv => lv.2 ≤ totalGrowth) with
  | some lv => lv.1
  | none => 1

end GrowthCalculationService

namespace RedisGameService

/-- `RedisGameService.calculateTreeLevel`: iterate the insertion-order
`levels` array from the last index downward, return the first level whose
threshold is met, defaulting to seedling. -/
def calculateTreeLevel (totalGrowth : ℚ) : ℕ :=
  match treeLevels.reverse.find? (fun lv => lv.2 ≤ totalGrowth) with
  | some lv => lv.1
  | none => 1

end RedisGameService

/-- The descending list used by `GrowthCalculationService.calculateTreeLevel`
is exactly the insertion-order table sorted by threshold descending. -/
theorem sortedLevelsDesc_eq_reverse :
    GrowthCalculationService.sortedLevelsDesc = treeLevels.reverse := by decide

/-- All three level functions agree at every input. -/
theorem calculateTreeLevel_agree (g : ℚ) :
    GrowthCalculationService.calculateTreeLevel g = calculateTreeLevel g ∧
    RedisGameService.calculateTreeLevel g = calculateTreeLevel g := by
  constructor <;>
    simp only [GrowthCalculationService.calculateTreeLevel,
      GrowthCalculationService.sortedLevelsDesc,
      RedisGameService.calculateTreeLevel, treeLevels, List.reverse,
      List.reverseAux, List.find?, calculateTreeLevel] <;>
    by_cases h1000 : (1000 : ℚ) ≤ g <;>
    by_cases h500 : (500 : ℚ) ≤ g <;>
    by_cases h300 : (300 : ℚ) ≤ g <;>
    by_cases h150 : (150 : ℚ) ≤ g <;>
    by_cases h50 : (50 : ℚ) ≤ g <;>
    by_cases h0 : (0 : ℚ) ≤ g <;>
    simp [h1000, h500, h300, h150, h50, h0]

/-- On an exact value whose hundredfold is an integer, rounding to 2 decimal
places is the identity. -/
theorem round2_eq_self_of_int (q : ℚ) (n : ℤ) (h : q * 100 = (n : ℚ)) :
    GrowthCalculationService.round2 q = q := by
  have hfloor : GrowthCalculationService.jsRound (q * 100) = n := by
    rw [h, GrowthCalculationService.jsRound, add_comm]
    rw [Int.floor_add_int]
    norm_num
  rw [GrowthCalculationService.round2, hfloor]
  field_simp at h ⊢
  linarith

/-- C1: for all non-negative integer counters and upvotes, both growth
functions (`GrowthCalculationService.calculateGrowth` and the shared
`calculateGrowth` utility) return
`1.5*seedsPlanted + 2*spiritsFed + 3*robotCharged + 0.1*redditUpvotes`
rounded to 2 decimal places half-up (over exact arithmetic the rounding is
the identity, so the unrounded shared utility agrees). -/
theorem claim_C1_growth_formula (s f c u : ℕ) :
    calculateGrowth s f c u =
      GrowthCalculationService.round2
        (1.5 * (s : ℚ) + 2 * (f : ℚ) + 3 * (c : ℚ) + 0.1 * (u : ℚ)) ∧
    GrowthCalculationService.calculateGrowth s f c u =
      GrowthCalculationService.round2
        (1.5 * (s : ℚ) + 2 * (f : ℚ) + 3 * (c : ℚ) + 0.1 * (u : ℚ)) := by
  have hval : (1.5 * (s : ℚ) + 2 * (f : ℚ) + 3 * (c : ℚ) + 0.1 * (u : ℚ)) * 100 =
      ((150 * s + 200 * f + 300 * c + 10 * u : ℤ) : ℚ) := by
    push_cast
    norm_num
    ring
  have hval2 : ((s : ℚ) * 1.5 + (f : ℚ) * 2 + (c : ℚ) * 3 + (u : ℚ) * 0.1) * 100 =
      ((150 * s + 200 * f + 300 * c + 10 * u : ℤ) : ℚ) := by
    push_cast
    norm_num
    ring
  have hround := round2_eq_self_of_int _ _ hval
  have hround2 := round2_eq_self_of_int _ _ hval2
  constructor
  · rw [hround, calculateGrowth]; ring
  · rw [GrowthCalculationService.calculateGrowth, hround2, hround]
    ring

/-- The level function only ever produces levels 1 through 6. -/
theorem calculateTreeLevel_mem_range (g : ℚ) :
    1 ≤ calculateTreeLevel g ∧ calculateTreeLevel g ≤ 6 := by
  unfold calculateTreeLevel
  split_ifs <;> omega

/-- The level function is monotonically non-decreasing. -/
theorem calculateTreeLevel_mono {g g' : ℚ} (h : g ≤ g') :
    calculateTreeLevel g ≤ calculateTreeLevel g' := by
  unfold calculateTreeLevel
  split_ifs <;> first | omega | linarith

/-- For non-negative growth the returned level is the highest level of the
threshold table whose threshold is met. -/
theorem calculateTreeLevel_best (g : ℚ) (hg : 0 ≤ g) :
    ∃ thr : ℚ, (calculateTreeLevel g, thr) ∈ treeLevels ∧ thr ≤ g ∧
      ∀ p ∈ treeLevels, p.2 ≤ g → p.1 ≤ calculateTreeLevel g := by
  unfold calculateTreeLevel
  split_ifs with h1 h2 h3 h4 h5
  · exact ⟨1000, by decide, h1, by intro p hp hple; fin_cases hp <;> norm_num⟩
  · refine ⟨500, by decide, h2, ?_⟩
    intro p hp hple
    fin_cases hp <;> simp_all
  · refine ⟨300, by decide, h3, ?_⟩
    intro p hp hple
    fin_cases hp <;> simp_all
  · refine ⟨150, by decide, h4, ?_⟩
    intro p hp hple
    fin_cases hp <;> simp_all
  · refine ⟨50, by decide, h5, ?_⟩
    intro p hp hple
    fin_cases hp <;> simp_all
  · refine ⟨0, by decide, hg, ?_⟩
    intro p hp hple
    fin_cases hp <;> simp_all

/-- C2: for all `totalGrowth ≥ 0`, every level-computation function returns
the highest level in the threshold table whose threshold is `≤ totalGrowth`
(ties toward the higher level); the function is monotonically non-decreasing,
its result lies in `{1,...,6}`, and no level beyond 6 is ever produced. -/
theorem claim_C2_tree_level (g : ℚ) (hg : 0 ≤ g) :
    (GrowthCalculationService.calculateTreeLevel g = calculateTreeLevel g ∧
     RedisGameService.calculateTreeLevel g = calculateTreeLevel g) ∧
    (∃ thr : ℚ, (calculateTreeLevel g, thr) ∈ treeLevels ∧ thr ≤ g ∧
      ∀ p ∈ treeLevels, p.2 ≤ g → p.1 ≤ calculateTreeLevel g) ∧
    (1 ≤ calculateTreeLevel g ∧ calculateTreeLevel g ≤ 6) ∧
    ∀ g', g ≤ g' → calculateTreeLevel g ≤ calculateTreeLevel g' :=
  ⟨calculateTreeLevel_agree g, calculateTreeLevel_best g hg,
    calculateTreeLevel_mem_range g, fun _ h => calculateTreeLevel_mono h⟩

/-- Witness for C2 at the concrete input `totalGrowth = 75`. -/
theorem claim_C2_tree_level_witness :
    (0 : ℚ) ≤ 75 ∧
      (1 ≤ calculateTreeLevel 75 ∧ calculateTreeLevel 75 ≤ 6) ∧
      GrowthCalculationService.calculateTreeLevel 75 = calculateTreeLevel 75 :=
  ⟨by norm_num, (claim_C2_tree_level 75 (by norm_num)).2.2.1,
    (claim_C2_tree_level 75 (by norm_num)).1.1⟩

/-! ## Error taxonomy and the shared retry wrapper

Every service class carries the same private `withRetry` method:
`maxRetries = 3`, `retryDelay = 1000`, delay doubling per attempt
(`retryDelay * 2^(attempt-1)`), and after the final failed attempt the last
error is rethrown wrapped in `ERROR_MESSAGES.REDIS_CONNECTION_ERROR`. -/

/-- The error kinds thrown by the modelled services. -/
inductive GameError where
  /-- `Game state not found for subreddit: ...` -/
  | gameStateNotFound (subreddit : String)
  /-- `Player resources not found: ... in ...` -/
  | playerNotFound (username subreddit : String)
  /-- `ERROR_MESSAGES.INSUFFICIENT_RESOURCES` -/
  | insufficientResources
  /-- `Invalid game state data structure` (validation failure on read) -/
  | invalidGameState
  /-- `Invalid player resources data structure` (validation failure on read) -/
  | invalidPlayerResources
  /-- `Cinnamon amount must be positive` -/
  | cinnamonNotPositive
  /-- `Cinnamon cannot be negative` -/
  | cinnamonNegative
  /-- `Cinnamon cannot exceed MAX_CINNAMON` -/
  | cinnamonExceedsMax
  /-- `Seeds cannot be negative` -/
  | seedsNegative
  /-- `Energy cannot be negative` -/
  | energyNegative
  /-- `Total contributions cannot be negative` -/
  | contributionsNegative
  /-- A transient store failure surfaced by the underlying key-value client. -/
  | storeUnavailable
  /-- `ERROR_MESSAGES.REDIS_CONNECTION_ERROR: <inner message>` — the wrapper
  added by `withRetry` after exhausting its attempts. -/
  | redisConnectionError (inner : GameError)
  /-- `... : Unknown error` (the loop never ran). -/
  | unknownError
deriving DecidableEq, Repr

/-- Result of a retry-wrapped operation: the outcome, the number of attempts
made, and the backoff delays (in ms) slept between attempts. -/
structure RetryResult (α : Type) where
  result : Except GameError α
  attempts : ℕ
  delays : List ℕ
deriving Repr

/-- The retry loop body: `attempt` is the 1-based attempt counter, `fuel`
counts the attempts still allowed after the current one. On failure of a
non-final attempt it sleeps `base * 2^(attempt-1)` ms and retries; on failure
of the final attempt it wraps the last error. The operation is indexed by the
attempt number so that attempt-dependent behaviour can be expressed. -/
def withRetryAux {α : Type} (op : ℕ → Except GameError α) (base : ℕ) :
    ℕ → ℕ → RetryResult α
  | _, 0 => ⟨.error (.redisConnectionError .unknownError), 0, []⟩
  | attempt, fuel + 1 =>
    match op attempt with
    | .ok a => ⟨.ok a, attempt, []⟩
    | .error e =>
      if fuel = 0 then ⟨.error (.redisConnectionError e), attempt, []⟩
      else
        let d := base * 2 ^ (attempt - 1)
        let r := withRetryAux op base (attempt + 1) fuel
        ⟨r.result, r.attempts, d :: r.delays⟩

/-- `withRetry` as written in `RedisGameService`, `PlayerResourceService`,
`GrowthCalculationService`, ...: 3 attempts, 1000 ms base delay. -/
def withRetry {α : Type} (op : ℕ → Except GameError α) : RetryResult α :=
  withRetryAux op 1000 1 3

/-- An operation that fails on every attempt is executed exactly 3 times,
sleeping 1000 ms then 2000 ms between attempts, and the last error surfaces
wrapped in the generic connection-error message — whatever the error kind. -/
theorem withRetry_error (e : GameError) :
    withRetry (fun _ => (.error e : Except GameError Unit)) =
      ⟨.error (.redisConnectionError e), 3, [1000, 2000]⟩ := rfl

/-- An operation that succeeds at once is executed exactly once. -/
theorem withRetry_ok {α : Type} (a : α) :
    withRetry (fun _ => (.ok a : Except GameError α)) = ⟨.ok a, 1, []⟩ := rfl

/-- State-threading variant of the same retry pattern: the wrapped operation
both returns a result and (possibly) mutates the store; each retry re-runs it
on the store left by the previous attempt. The loop is unrolled to the fixed
`maxRetries = 3` of the source. -/
def withRetryState {σ α : Type} (op : σ → Except GameError α × σ) (s0 : σ) :
    Except GameError α × σ × ℕ :=
  match op s0 with
  | (.ok a, s1) => (.ok a, s1, 1)
  | (.error _, s1) =>
    match op s1 with
    | (.ok a, s2) => (.ok a, s2, 2)
    | (.error _, s2) =>
      match op s2 with
      | (.ok a, s3) => (.ok a, s3, 3)
      | (.error e, s3) => (.error (.redisConnectionError e), s3, 3)

theorem withRetryState_ok {σ α : Type} (op : σ → Except GameError α × σ)
    (s : σ) (a : α) (s' : σ) (h : op s = (.ok a, s')) :
    withRetryState op s = (.ok a, s', 1) := by
  unfold withRetryState
  rw [h]

theorem withRetryState_error {σ α : Type} (op : σ → Except GameError α × σ)
    (s : σ) (e : GameError) (h : op s = (.error e, s)) :
    withRetryState op s = (.error (.redisConnectionError e), s, 3) := by
  unfold withRetryState
  simp only [h]

/-! ## GameState, ActionHistory, and the RedisGameService repository -/

/-- The per-subreddit `GameState` record. Timestamps are epoch milliseconds. -/
@[ext]
structure GameState where
  subredditName : String
  treeLevel : ℕ
  totalGrowth : ℚ
  seedsPlanted : ℕ
  spiritsFed : ℕ
  robotCharged : ℕ
  dailyUpvotes : ℕ
  lastGrowthCalculation : ℕ
  createdAt : ℕ
  updatedAt : ℕ
deriving DecidableEq, Repr

/-- `Partial<Omit<GameState, 'subredditName' | 'createdAt'>>` — the partial
update object accepted by `updateGameState`; absent fields are `none`. -/
structure GameStateUpdates where
  treeLevel : Option ℕ := none
  totalGrowth : Option ℚ := none
  seedsPlanted : Option ℕ := none
  spiritsFed : Option ℕ := none
  robotCharged : Option ℕ := none
  dailyUpvotes : Option ℕ := none
  lastGrowthCalculation : Option ℕ := none
  updatedAt : Option ℕ := none
deriving DecidableEq, Repr

/-- The action types of the closed `PlayerActionType` set. -/
inductive ActionType where
  | plant
  | feed
  | charge
  | post
deriving DecidableEq, Repr

/-- An `ActionHistory` record. -/
structure ActionHistory where
  id : String
  username : String
  subredditName : String
  actionType : ActionType
  resourcesSpent : ℚ
  growthContributed : ℚ
  timestamp : ℕ
deriving DecidableEq, Repr

/-- `Omit<ActionHistory, 'id' | 'timestamp'>` — the input to `recordAction`. -/
structure ActionInput where
  username : String
  subredditName : String
  actionType : ActionType
  resourcesSpent : ℚ
  growthContributed : ℚ
deriving DecidableEq, Repr

/-- The `{ns}:subreddit:{name}:state` keys of the store. -/
def GStore : Type := String → Option GameState

/-- The `{ns}:subreddit:{name}:actions` keys of the store (a missing key reads
as the empty list, as `JSON.parse` is only applied when data exists). -/
def HStore : Type := String → Option (List ActionHistory)

namespace RedisGameService

/-- Write one subreddit's game state. -/
def setGame (games : GStore) (sub : String) (st : GameState) : GStore :=
  fun k => if k = sub then some st else games k

/-- Write one subreddit's action list. -/
def setHist (hists : HStore) (sub : String) (acts : List ActionHistory) : HStore :=
  fun k => if k = sub then some acts else hists k

/-- The spread-merge `{ ...currentState, ...updates, updatedAt: new Date() }`
followed by `updatedState.treeLevel = this.calculateTreeLevel(updatedState.totalGrowth)`
from `updateGameState`. -/
def applyUpdates (st : GameState) (u : GameStateUpdates) (now : ℕ) : GameState :=
  let merged : GameState :=
    { st with
      treeLevel := u.treeLevel.getD st.treeLevel
      totalGrowth := u.totalGrowth.getD st.totalGrowth
      seedsPlanted := u.seedsPlanted.getD st.seedsPlanted
      spiritsFed := u.spiritsFed.getD st.spiritsFed
      robotCharged := u.robotCharged.getD st.robotCharged
      dailyUpvotes := u.dailyUpvotes.getD st.dailyUpvotes
      lastGrowthCalculation := u.lastGrowthCalculation.getD st.lastGrowthCalculation
      updatedAt := now }
  { merged with treeLevel := calculateTreeLevel merged.totalGrowth }

/-- One attempt of `updateGameState`: read the current record (fail with
NotFound when absent), merge, re-derive the tree level, stamp `updatedAt`,
persist. -/
def updateGameStateAttempt (sub : String) (u : GameStateUpdates) (now : ℕ)
    (games : GStore) : Except GameError GameState × GStore :=
  match games sub with
  | none => (.error (.gameStateNotFound sub), games)
  | some st =>
    let st' := applyUpdates st u now
    (.ok st', setGame games sub st')

/-- `updateGameState`, wrapped in the service's `withRetry`. -/
def updateGameState (games : GStore) (sub : String) (u : GameStateUpdates)
    (now : ℕ) : Except GameError GameState × GStore × ℕ :=
  withRetryState (updateGameStateAttempt sub u now) games

/-- `updateGameStateFromAction`: build the per-action partial update
(`totalGrowth: 0` placeholder; the matching counter set to 1), then — when the
current state exists — replace each counter with `current + increment` and
`totalGrowth` with `current.totalGrowth + action.growthContributed`, and call
`updateGameState`. -/
def updateGameStateFromAction (games : GStore) (a : ActionHistory) (now : ℕ) :
    Except GameError GameState × GStore × ℕ :=
  let base : GameStateUpdates :=
    { totalGrowth := some 0
      seedsPlanted := if a.actionType = .plant then some 1 else none
      spiritsFed := if a.actionType = .feed then some 1 else none
      robotCharged := if a.actionType = .charge then some 1 else none }
  let u : GameStateUpdates :=
    match games a.subredditName with
    | none => base
    | some cur =>
      { base with
        seedsPlanted := some (cur.seedsPlanted + (base.seedsPlanted.getD 0))
        spiritsFed := some (cur.spiritsFed + (base.spiritsFed.getD 0))
        robotCharged := some (cur.robotCharged + (base.robotCharged.getD 0))
        totalGrowth := some (cur.totalGrowth + a.growthContributed) }
  updateGameState games a.subredditName u now

/-- One attempt of `recordAction`: assign id and timestamp, prepend to the
subreddit's action list, keep only the first 1000 entries
(`actions.unshift(action); if (actions.length > 1000) actions.splice(1000)`),
persist the list, then update the game state from the action. -/
def recordActionAttempt (input : ActionInput) (newId : String) (now : ℕ)
    (games : GStore) (hists : HStore) :
    Except GameError ActionHistory × GStore × HStore :=
    let a : ActionHistory :=
      { id := newId
        username := input.username
        subredditName := input.subredditName
        actionType := input.actionType
        resourcesSpent := input.resourcesSpent
        growthContributed := input.growthContributed
        timestamp := now }
    let acts := (hists input.subredditName).getD []
    let acts' := (a :: acts).take 1000
    let hists' := setHist hists input.subredditName acts'
    match updateGameStateFromAction games a now with
    | (.ok _, games', _) => (.ok a, games', hists')
    | (.error e, games', _) => (.error e, games', hists')

/-- `recordAction`, wrapped in the service's `withRetry`. -/
def recordAction (games : GStore) (hists : HStore) (input : ActionInput)
    (newId : String) (now : ℕ) :
    Except GameError ActionHistory × (GStore × HStore) × ℕ :=
  withRetryState
    (fun s => let (r, g, h) := recordActionAttempt input newId now s.1 s.2; (r, (g, h)))
    (games, hists)

/-- `initializeGameState`: return the existing record if present; otherwise
create and persist the zero-valued record with tree level 1. -/
def initializeGameState (games : GStore) (sub : String) (now : ℕ) :
    GameState × GStore :=
  match games sub with
  | some st => (st, games)
  | none =>
    let initialState : GameState :=
      { subredditName := sub
        treeLevel := 1
        totalGrowth := 0
        seedsPlanted := 0
        spiritsFed := 0
        robotCharged := 0
        dailyUpvotes := 0
        lastGrowthCalculation := now
        createdAt := now
        updatedAt := now }
    (initialState, setGame games sub initialState)

theorem applyUpdates_treeLevel (st : GameState) (u : GameStateUpdates) (now : ℕ) :
    (applyUpdates st u now).treeLevel =
      calculateTreeLevel (applyUpdates st u now).totalGrowth := rfl

theorem applyUpdates_totalGrowth (st : GameState) (u : GameStateUpdates) (now : ℕ) :
    (applyUpdates st u now).totalGrowth = u.totalGrowth.getD st.totalGrowth := rfl

theorem applyUpdates_seedsPlanted (st : GameState) (u : GameStateUpdates) (now : ℕ) :
    (applyUpdates st u now).seedsPlanted = u.seedsPlanted.getD st.seedsPlanted := rfl

theorem applyUpdates_spiritsFed (st : GameState) (u : GameStateUpdates) (now : ℕ) :
    (applyUpdates st u now).spiritsFed = u.spiritsFed.getD st.spiritsFed := rfl

theorem applyUpdates_robotCharged (st : GameState) (u : GameStateUpdates) (now : ℕ) :
    (applyUpdates st u now).robotCharged = u.robotCharged.getD st.robotCharged := rfl

/-- The caller-supplied `treeLevel` field of the partial update never reaches
the merged record: it is overwritten by the recomputation. -/
theorem applyUpdates_treeLevel_irrelevant (st : GameState) (u : GameStateUpdates)
    (now : ℕ) (l : Option ℕ) :
    applyUpdates st { u with treeLevel := l } now =
      applyUpdates st { u with treeLevel := none } now := rfl

/-- `updateGameState` on a missing record: NotFound on every attempt, wrapped
after 3 attempts, store untouched. -/
theorem updateGameState_none (games : GStore) (sub : String) (u : GameStateUpdates)
    (now : ℕ) (h : games sub = none) :
    updateGameState games sub u now =
      (.error (.redisConnectionError (.gameStateNotFound sub)), games, 3) := by
  apply withRetryState_error
  unfold updateGameStateAttempt
  rw [h]

/-- `updateGameState` on an existing record: succeeds on the first attempt,
persisting the merged record with the re-derived tree level. -/
theorem updateGameState_some (games : GStore) (sub : String) (u : GameStateUpdates)
    (now : ℕ) (st : GameState) (h : games sub = some st) :
    updateGameState games sub u now =
      (.ok (applyUpdates st u now),
       setGame games sub (applyUpdates st u now), 1) := by
  apply withRetryState_ok
  unfold updateGameStateAttempt
  rw [h]

theorem setGame_self (games : GStore) (sub : String) (st : GameState) :
    setGame games sub st sub = some st := by
  unfold setGame
  simp

theorem setGame_other (games : GStore) (sub k : String) (st : GameState)
    (h : k ≠ sub) : setGame games sub st k = games k := by
  unfold setGame
  simp [h]

theorem setHist_self (hists : HStore) (sub : String) (acts : List ActionHistory) :
    setHist hists sub acts sub = some acts := by
  unfold setHist
  simp

theorem setHist_other (hists : HStore) (sub k : String) (acts : List ActionHistory)
    (h : k ≠ sub) : setHist hists sub acts k = hists k := by
  unfold setHist
  simp [h]

end RedisGameService

/-- A success of the state-threading retry wrapper inherits any postcondition
established by a successful attempt. -/
theorem withRetryState_ok_inv {σ α : Type} (op : σ → Except GameError α × σ)
    (P : σ → α → Prop) (hop : ∀ s s' a, op s = (.ok a, s') → P s' a) :
    ∀ s s' a k, withRetryState op s = (.ok a, s', k) → P s' a := by
  intro s s' a k h
  unfold withRetryState at h
  rcases h1 : op s with ⟨r1, s1⟩
  cases r1 with
  | ok a1 =>
    simp only [h1] at h
    cases h
    exact hop _ _ _ h1
  | error e1 =>
    simp only [h1] at h
    rcases h2 : op s1 with ⟨r2, s2⟩
    cases r2 with
    | ok a2 =>
      simp only [h2] at h
      cases h
      exact hop _ _ _ h2
    | error e2 =>
      simp only [h2] at h
      rcases h3 : op s2 with ⟨r3, s3⟩
      cases r3 with
      | ok a3 =>
        simp only [h3] at h
        cases h
        exact hop _ _ _ h3
      | error e3 =>
        simp only [h3] at h
        simp at h

/-- Any predicate on the threaded state that each attempt preserves is
preserved by the whole retry wrapper. -/
theorem withRetryState_preserves {σ α : Type} (op : σ → Except GameError α × σ)
    (Q : σ → Prop) (hop : ∀ s, Q s → Q (op s).2) :
    ∀ s, Q s → Q (withRetryState op s).2.1 := by
  intro s hs
  unfold withRetryState
  split
  next a1 s1 heq1 =>
    have t := hop s hs; rw [heq1] at t; exact t
  next e1 s1 heq1 =>
    have hs1 : Q s1 := by have t := hop s hs; rw [heq1] at t; exact t
    split
    next a2 s2 heq2 =>
      have t := hop s1 hs1; rw [heq2] at t; exact t
    next e2 s2 heq2 =>
      have hs2 : Q s2 := by have t := hop s1 hs1; rw [heq2] at t; exact t
      split
      next a3 s3 heq3 =>
        have t := hop s2 hs2; rw [heq3] at t; exact t
      next e3 s3 heq3 =>
        have t := hop s2 hs2; rw [heq3] at t; exact t

namespace RedisGameService

/-- The `ActionHistory` record assembled by `recordAction` from its input. -/
def mkAction (input : ActionInput) (newId : String) (now : ℕ) : ActionHistory :=
  { id := newId
    username := input.username
    subredditName := input.subredditName
    actionType := input.actionType
    resourcesSpent := input.resourcesSpent
    growthContributed := input.growthContributed
    timestamp := now }

/-- When the subreddit's game state exists, `recordAction` succeeds on its
first attempt: the new action is prepended to the (capped) history, and the
game state persisted at the subreddit's key is the merged update. -/
theorem recordAction_some (games : GStore) (hists : HStore) (input : ActionInput)
    (newId : String) (now : ℕ) (cur : GameState)
    (h : games input.subredditName = some cur) :
    ∃ st' : GameState,
      recordAction games hists input newId now =
        (.ok (mkAction input newId now),
         (setGame games input.subredditName st',
          setHist hists input.subredditName
            ((mkAction input newId now :: (hists input.subredditName).getD []).take 1000)),
         1) ∧
      st'.seedsPlanted = cur.seedsPlanted + (if input.actionType = .plant then 1 else 0) ∧
      st'.spiritsFed = cur.spiritsFed + (if input.actionType = .feed then 1 else 0) ∧
      st'.robotCharged = cur.robotCharged + (if input.actionType = .charge then 1 else 0) ∧
      st'.totalGrowth = cur.totalGrowth + input.growthContributed ∧
      st'.treeLevel = calculateTreeLevel st'.totalGrowth ∧
      st'.dailyUpvotes = cur.dailyUpvotes ∧
      st'.createdAt = cur.createdAt ∧
      st'.subredditName = cur.subredditName ∧
      st'.lastGrowthCalculation = cur.lastGrowthCalculation ∧
      st'.updatedAt = now := by
  have hattempt :
      recordActionAttempt input newId now games hists =
        (.ok (mkAction input newId now),
         setGame games input.subredditName
           (applyUpdates cur
             { totalGrowth := some (cur.totalGrowth + input.growthContributed)
               seedsPlanted :=
                 some (cur.seedsPlanted + (if input.actionType = .plant then (1 : ℕ) else 0))
               spiritsFed :=
                 some (cur.spiritsFed + (if input.actionType = .feed then (1 : ℕ) else 0))
               robotCharged :=
                 some (cur.robotCharged + (if input.actionType = .charge then (1 : ℕ) else 0)) }
             now),
         setHist hists input.subredditName
           ((mkAction input newId now :: (hists input.subredditName).getD []).take 1000)) := by
    unfold recordActionAttempt updateGameStateFromAction
    simp only [mkAction, h]
    rw [updateGameState_some _ _ _ _ _ h]
    cases hp : input.actionType <;> simp [hp, Option.getD]
  refine ⟨applyUpdates cur
    { totalGrowth := some (cur.totalGrowth + input.growthContributed)
      seedsPlanted :=
        some (cur.seedsPlanted + (if input.actionType = .plant then (1 : ℕ) else 0))
      spiritsFed :=
        some (cur.spiritsFed + (if input.actionType = .feed then (1 : ℕ) else 0))
      robotCharged :=
        some (cur.robotCharged + (if input.actionType = .charge then (1 : ℕ) else 0)) }
    now, ?_, ?_, ?_, ?_, ?_, ?_, ?_, ?_, ?_, ?_, ?_⟩
  · unfold recordAction
    apply withRetryState_ok
    simp [hattempt]
  · simp [applyUpdates_seedsPlanted]
  · simp [applyUpdates_spiritsFed]
  · simp [applyUpdates_robotCharged]
  · simp [applyUpdates_totalGrowth]
  · exact applyUpdates_treeLevel _ _ _
  · rfl
  · rfl
  · rfl
  · rfl
  · rfl

/-- When the subreddit's game state is absent, every attempt of
`recordAction` fails with the (doubly) wrapped NotFound error; the action
list is still (re)written on each attempt, but the game-state store is left
untouched. -/
theorem recordAction_none (games : GStore) (hists : HStore) (input : ActionInput)
    (newId : String) (now : ℕ) (h : games input.subredditName = none) :
    (recordAction games hists input newId now).1 =
      .error (.redisConnectionError
        (.redisConnectionError (.gameStateNotFound input.subredditName))) ∧
    (recordAction games hists input newId now).2.1.1 = games := by
  have hattempt : ∀ hs : HStore,
      recordActionAttempt input newId now games hs =
        (.error (.redisConnectionError (.gameStateNotFound input.subredditName)),
         games,
         setHist hs input.subredditName
           ((mkAction input newId now :: (hs input.subredditName).getD []).take 1000)) := by
    intro hs
    unfold recordActionAttempt updateGameStateFromAction
    simp only [mkAction, h]
    rw [updateGameState_none _ _ _ _ h]
  unfold recordAction withRetryState
  simp only [hattempt]
  constructor <;> first | rfl | trivial

end RedisGameService

/-- C3: after every successful `updateGameState` the persisted `GameState`
satisfies `treeLevel = calculateTreeLevel totalGrowth`, even when the caller
includes a `treeLevel` value in the partial update (the repository rederives
it from the merged `totalGrowth` and never accepts it as caller input); the
same invariant holds for the state persisted by a successful `recordAction`. -/
theorem claim_C3_treeLevel_invariant :
    (∀ (games : GStore) (sub : String) (u : GameStateUpdates) (now : ℕ)
       (st' : GameState) (g' : GStore) (k : ℕ),
       RedisGameService.updateGameState games sub u now = (.ok st', g', k) →
       g' sub = some st' ∧ st'.treeLevel = calculateTreeLevel st'.totalGrowth) ∧
    (∀ (games : GStore) (sub : String) (u : GameStateUpdates) (now : ℕ)
       (l : Option ℕ),
       RedisGameService.updateGameState games sub { u with treeLevel := l } now =
         RedisGameService.updateGameState games sub { u with treeLevel := none } now) ∧
    (∀ (games : GStore) (hists : HStore) (input : ActionInput) (newId : String)
       (now : ℕ) (a : ActionHistory) (s' : GStore × HStore) (k : ℕ),
       RedisGameService.recordAction games hists input newId now = (.ok a, s', k) →
       ∀ st, s'.1 input.subredditName = some st →
         st.treeLevel = calculateTreeLevel st.totalGrowth) := by
  refine ⟨?_, ?_, ?_⟩
  · intro games sub u now st' g' k h
    cases hcur : games sub with
    | none =>
      rw [RedisGameService.updateGameState_none _ _ _ _ hcur] at h
      simp at h
    | some st =>
      rw [RedisGameService.updateGameState_some _ _ _ _ _ hcur] at h
      cases h
      refine ⟨RedisGameService.setGame_self _ _ _, ?_⟩
      rw [RedisGameService.applyUpdates_treeLevel]
      exact (calculateTreeLevel_agree _).2
  · intro games sub u now l
    cases hcur : games sub with
    | none =>
      rw [RedisGameService.updateGameState_none _ _ _ _ hcur,
        RedisGameService.updateGameState_none _ _ _ _ hcur]
    | some st =>
      rw [RedisGameService.updateGameState_some _ _ _ _ _ hcur,
        RedisGameService.updateGameState_some _ _ _ _ _ hcur,
        RedisGameService.applyUpdates_treeLevel_irrelevant]
  · intro games hists input newId now a s' k h
    cases hcur : games input.subredditName with
    | none =>
      exfalso
      have herr := (RedisGameService.recordAction_none games hists input newId now hcur).1
      rw [h] at herr
      simp at herr
    | some cur =>
      obtain ⟨st', heq, -, -, -, -, hlvl, -, -, -, -, -⟩ :=
        RedisGameService.recordAction_some games hists input newId now cur hcur
      rw [heq] at h
      cases h
      intro st hst
      simp only [RedisGameService.setGame_self] at hst
      cases hst
      rw [hlvl]
      exact (calculateTreeLevel_agree _).2

namespace RedisGameService

/-- The zero-valued initial record created by `initializeGameState`. -/
def initialRecord (sub : String) (now : ℕ) : GameState :=
  { subredditName := sub
    treeLevel := 1
    totalGrowth := 0
    seedsPlanted := 0
    spiritsFed := 0
    robotCharged := 0
    dailyUpvotes := 0
    lastGrowthCalculation := now
    createdAt := now
    updatedAt := now }

theorem initializeGameState_some (games : GStore) (sub : String) (now : ℕ)
    (st : GameState) (h : games sub = some st) :
    initializeGameState games sub now = (st, games) := by
  unfold initializeGameState
  rw [h]

theorem initializeGameState_none (games : GStore) (sub : String) (now : ℕ)
    (h : games sub = none) :
    initializeGameState games sub now =
      (initialRecord sub now, setGame games sub (initialRecord sub now)) := by
  unfold initializeGameState initialRecord
  rw [h]

end RedisGameService

/-- C8: `initializeGameState` is idempotent — when a record exists, it is
returned unchanged (same `createdAt`) and nothing is persisted; when no
record exists, the zero-valued record with tree level 1 is created and
persisted; and a second call (at any later time) returns the record created
by the first call without writing to the store. -/
theorem claim_C8_initialize_idempotent (games : GStore) (sub : String) (now : ℕ) :
    (∀ st, games sub = some st →
      RedisGameService.initializeGameState games sub now = (st, games)) ∧
    (games sub = none →
      (RedisGameService.initializeGameState games sub now).1 =
        RedisGameService.initialRecord sub now ∧
      (RedisGameService.initializeGameState games sub now).2 sub =
        some (RedisGameService.initializeGameState games sub now).1 ∧
      ∀ k, k ≠ sub →
        (RedisGameService.initializeGameState games sub now).2 k = games k) ∧
    (∀ now', RedisGameService.initializeGameState
        (RedisGameService.initializeGameState games sub now).2 sub now' =
      ((RedisGameService.initializeGameState games sub now).1,
       (RedisGameService.initializeGameState games sub now).2)) := by
  refine ⟨?_, ?_, ?_⟩
  · intro st h
    exact RedisGameService.initializeGameState_some games sub now st h
  · intro h
    rw [RedisGameService.initializeGameState_none games sub now h]
    exact ⟨rfl, RedisGameService.setGame_self _ _ _,
      fun k hk => RedisGameService.setGame_other _ _ _ _ hk⟩
  · intro now'
    cases hcur : games sub with
    | some st =>
      rw [RedisGameService.initializeGameState_some games sub now st hcur]
      exact RedisGameService.initializeGameState_some games sub now' st hcur
    | none =>
      rw [RedisGameService.initializeGameState_none games sub now hcur]
      exact RedisGameService.initializeGameState_some _ sub now' _
        (RedisGameService.setGame_self _ _ _)

/-- Witness for C8: a fresh store, then a second call 4 ticks later. -/
theorem claim_C8_initialize_idempotent_witness :
    ((RedisGameService.initializeGameState (fun _ => none) "testsub" 5).1 =
      RedisGameService.initialRecord "testsub" 5 ∧
     (RedisGameService.initializeGameState (fun _ => none) "testsub" 5).2 "testsub" =
      some (RedisGameService.initializeGameState (fun _ => none) "testsub" 5).1 ∧
     ∀ k, k ≠ "testsub" →
      (RedisGameService.initializeGameState (fun _ => none) "testsub" 5).2 k =
        (fun _ => none : GStore) k) ∧
    RedisGameService.initializeGameState
        (RedisGameService.initializeGameState (fun _ => none) "testsub" 5).2 "testsub" 9 =
      ((RedisGameService.initializeGameState (fun _ => none) "testsub" 5).1,
       (RedisGameService.initializeGameState (fun _ => none) "testsub" 5).2) :=
  ⟨(claim_C8_initialize_idempotent (fun _ => none) "testsub" 5).2.1 rfl,
   (claim_C8_initialize_idempotent (fun _ => none) "testsub" 5).2.2 9⟩

namespace RedisGameService

/-- Whatever happens to the game-state update, each attempt of `recordAction`
writes the subreddit's action list as the new action prepended to the current
list, truncated to 1000 entries. -/
theorem recordActionAttempt_hist (input : ActionInput) (newId : String) (now : ℕ)
    (games : GStore) (hists : HStore) :
    (recordActionAttempt input newId now games hists).2.2 =
      setHist hists input.subredditName
        ((mkAction input newId now :: (hists input.subredditName).getD []).take 1000) := by
  unfold recordActionAttempt mkAction
  dsimp only
  split <;> rfl

end RedisGameService

/-- C7: the persisted action-history list never exceeds 1000 entries
(preserved by `recordAction` whatever the outcome), a successful
`recordAction` prepends the new entry (newest-first), and recording into a
subreddit that already holds 1000 entries leaves exactly 1000 entries with
the oldest (last) evicted. -/
theorem claim_C7_bounded_history :
    (∀ (games : GStore) (hists : HStore) (input : ActionInput) (newId : String)
       (now : ℕ),
       (∀ sub l, hists sub = some l → l.length ≤ 1000) →
       ∀ sub l,
         (RedisGameService.recordAction games hists input newId now).2.1.2 sub = some l →
         l.length ≤ 1000) ∧
    (∀ (games : GStore) (hists : HStore) (input : ActionInput) (newId : String)
       (now : ℕ) (cur : GameState),
       games input.subredditName = some cur →
       ∃ st' : GameState,
         RedisGameService.recordAction games hists input newId now =
           (.ok (RedisGameService.mkAction input newId now),
            (RedisGameService.setGame games input.subredditName st',
             RedisGameService.setHist hists input.subredditName
               ((RedisGameService.mkAction input newId now ::
                 (hists input.subredditName).getD []).take 1000)),
            1)) ∧
    (∀ (games : GStore) (hists : HStore) (input : ActionInput) (newId : String)
       (now : ℕ) (cur : GameState),
       games input.subredditName = some cur →
       ((hists input.subredditName).getD []).length = 1000 →
       (RedisGameService.recordAction games hists input newId now).2.1.2
           input.subredditName =
         some (RedisGameService.mkAction input newId now ::
           ((hists input.subredditName).getD []).dropLast) ∧
       (RedisGameService.mkAction input newId now ::
         ((hists input.subredditName).getD []).dropLast).length = 1000) := by
  refine ⟨?_, ?_, ?_⟩
  · intro games hists input newId now hbound sub l
    have hpres := withRetryState_preserves
      (fun s => let (r, g, h) :=
        RedisGameService.recordActionAttempt input newId now s.1 s.2; (r, (g, h)))
      (fun s : GStore × HStore => ∀ sub l, s.2 sub = some l → l.length ≤ 1000)
      ?hop (games, hists) hbound
    · exact fun h => hpres sub l h
    case hop =>
      rintro ⟨g, h⟩ hQ sub l hl
      have hh := RedisGameService.recordActionAttempt_hist input newId now g h
      rcases hatt : RedisGameService.recordActionAttempt input newId now g h with
        ⟨r, g', h'⟩
      rw [hatt] at hh
      have hh' : h' = RedisGameService.setHist h input.subredditName
          ((RedisGameService.mkAction input newId now ::
            (h input.subredditName).getD []).take 1000) := hh
      have hl' : h' sub = some l := by
        have : ((fun s : GStore × HStore => let (r, g, h) :=
            RedisGameService.recordActionAttempt input newId now s.1 s.2;
            (r, (g, h))) (g, h)).2.2 = h' := by
          simp only [hatt]
        rw [this] at hl
        exact hl
      rw [hh'] at hl'
      by_cases hk : sub = input.subredditName
      · subst hk
        rw [RedisGameService.setHist_self] at hl'
        cases hl'
        rw [List.length_take]
        exact min_le_left _ _
      · rw [RedisGameService.setHist_other _ _ _ _ hk] at hl'
        exact hQ sub l hl'
  · intro games hists input newId now cur h
    obtain ⟨st', heq, -⟩ :=
      RedisGameService.recordAction_some games hists input newId now cur h
    exact ⟨st', heq⟩
  · intro games hists input newId now cur h hlen
    obtain ⟨st', heq, -⟩ :=
      RedisGameService.recordAction_some games hists input newId now cur h
    have htake : (RedisGameService.mkAction input newId now ::
        (hists input.subredditName).getD []).take 1000 =
        RedisGameService.mkAction input newId now ::
          ((hists input.subredditName).getD []).dropLast := by
      rw [List.take_succ_cons, List.dropLast_eq_take, hlen]
    constructor
    · rw [heq]
      simp only [RedisGameService.setHist_self, htake]
    · simp [List.length_dropLast, hlen]

/-! ## The C4 charge scenario -/

/-- A `charge` action contributing 3.0 growth (cost from `RESOURCE_COSTS`). -/
def chargeInput : ActionInput :=
  { username := "alice"
    subredditName := "testsub"
    actionType := .charge
    resourcesSpent := RESOURCE_COSTS_CHARGE_ROBOT
    growthContributed := 3 }

/-- One `charge` `recordAction`, keeping the stores. -/
def chargeStep (s : GStore × HStore) : GStore × HStore :=
  (RedisGameService.recordAction s.1 s.2 chargeInput "actionid" 0).2.1

/-- `n` charge actions on a freshly initialized `"testsub"` store. -/
def chargeScenario (n : ℕ) : GStore × HStore :=
  chargeStep^[n]
    ((RedisGameService.initializeGameState (fun _ => none) "testsub" 0).2,
     fun _ => none)

/-- After `n` charge actions of 3.0 growth each on a freshly initialized
`"testsub"` store, the persisted state counts `n` charges, `3n` total growth,
and the rederived tree level. -/
theorem chargeScenario_spec (n : ℕ) :
    (chargeScenario n).1 "testsub" =
      some { subredditName := "testsub"
             treeLevel := RedisGameService.calculateTreeLevel (3 * (n : ℚ))
             totalGrowth := 3 * (n : ℚ)
             seedsPlanted := 0
             spiritsFed := 0
             robotCharged := n
             dailyUpvotes := 0
             lastGrowthCalculation := 0
             createdAt := 0
             updatedAt := 0 } := by
  induction n with
  | zero =>
    show ((RedisGameService.initializeGameState (fun _ => none) "testsub" 0).2,
      (fun _ => none : HStore)).1 "testsub" = _
    rw [RedisGameService.initializeGameState_none _ _ _ rfl]
    simp only [RedisGameService.setGame_self]
    norm_num [RedisGameService.initialRecord]
    decide
  | succ n ih =>
    obtain ⟨st', heq, hseeds, hfed, hcharged, hgrowth, hlvl, hdaily, hcreated,
      hsub, hlgc, hupd⟩ :=
      RedisGameService.recordAction_some (chargeScenario n).1 (chargeScenario n).2
        chargeInput "actionid" 0 _ ih
    simp only [chargeInput] at heq hseeds hfed hcharged hgrowth
    have hstep : chargeScenario (n + 1) = chargeStep (chargeScenario n) :=
      Function.iterate_succ_apply' _ _ _
    rw [hstep]
    unfold chargeStep
    simp only [chargeInput]
    rw [heq]
    simp only [RedisGameService.setGame_self]
    have hgrowth' : st'.totalGrowth = 3 * ((n : ℚ) + 1) := by
      rw [hgrowth]
      show (3 : ℚ) * (n : ℚ) + 3 = 3 * ((n : ℚ) + 1)
      ring
    have hlvl' : st'.treeLevel =
        RedisGameService.calculateTreeLevel (3 * ((n : ℚ) + 1)) := by
      rw [hlvl, hgrowth']
    have hrec : st' =
        { subredditName := "testsub"
          treeLevel := RedisGameService.calculateTreeLevel (3 * ((n : ℚ) + 1))
          totalGrowth := 3 * ((n : ℚ) + 1)
          seedsPlanted := 0
          spiritsFed := 0
          robotCharged := n + 1
          dailyUpvotes := 0
          lastGrowthCalculation := 0
          createdAt := 0
          updatedAt := 0 } := by
      apply GameState.ext
      · simpa using hsub
      · simpa using hlvl'
      · simpa using hgrowth'
      · simpa using hseeds
      · simpa using hfed
      · simpa using hcharged
      · simpa using hdaily
      · simpa using hlgc
      · simpa using hcreated
      · simpa using hupd
    rw [hrec]
    push_cast
    rfl

/-- C4: each `charge` `recordAction` on an existing state increments
`robotCharged` by exactly 1 and adds the action's `growthContributed` to
`totalGrowth` (with `treeLevel` rederived); and from a freshly initialized
state, 17 charge actions of 3.0 growth each leave `totalGrowth = 51` and
`treeLevel = 2` immediately after the 17th. -/
theorem claim_C4_charge_scenario :
    (∀ (games : GStore) (hists : HStore) (username sub newId : String)
       (spent growth : ℚ) (now : ℕ) (cur : GameState),
       games sub = some cur →
       ∃ st' : GameState,
         RedisGameService.recordAction games hists
             { username := username, subredditName := sub, actionType := .charge
               resourcesSpent := spent, growthContributed := growth } newId now =
           (.ok (RedisGameService.mkAction
               { username := username, subredditName := sub, actionType := .charge
                 resourcesSpent := spent, growthContributed := growth } newId now),
            (RedisGameService.setGame games sub st',
             RedisGameService.setHist hists sub
               ((RedisGameService.mkAction
                   { username := username, subredditName := sub, actionType := .charge
                     resourcesSpent := spent, growthContributed := growth } newId now ::
                 (hists sub).getD []).take 1000)),
            1) ∧
         st'.robotCharged = cur.robotCharged + 1 ∧
         st'.totalGrowth = cur.totalGrowth + growth ∧
         st'.seedsPlanted = cur.seedsPlanted ∧
         st'.spiritsFed = cur.spiritsFed ∧
         st'.treeLevel = calculateTreeLevel st'.totalGrowth) ∧
    (chargeScenario 17).1 "testsub" =
      some { subredditName := "testsub"
             treeLevel := 2
             totalGrowth := 51
             seedsPlanted := 0
             spiritsFed := 0
             robotCharged := 17
             dailyUpvotes := 0
             lastGrowthCalculation := 0
             createdAt := 0
             updatedAt := 0 } := by
  constructor
  · intro games hists username sub newId spent growth now cur h
    obtain ⟨st', heq, hseeds, hfed, hcharged, hgrowth, hlvl, -, -, -, -, -⟩ :=
      RedisGameService.recordAction_some games hists
        { username := username, subredditName := sub, actionType := .charge
          resourcesSpent := spent, growthContributed := growth } newId now cur h
    refine ⟨st', heq, ?_, hgrowth, ?_, ?_, ?_⟩
    · simpa using hcharged
    · simpa using hseeds
    · simpa using hfed
    · rw [hlvl]
      exact (calculateTreeLevel_agree _).2
  · rw [chargeScenario_spec 17]
    norm_num
    rw [show RedisGameService.calculateTreeLevel 51 = 2 by decide]

/-! ## PlayerResources and the PlayerResourceService -/

/-- The per-player × subreddit `PlayerResources` record. -/
structure PlayerResources where
  username : String
  subredditName : String
  cinnamon : ℚ
  seeds : ℚ
  energy : ℚ
  totalContributions : ℚ
  lastActive : ℕ
deriving DecidableEq, Repr

/-- The player-facing keys of the store: per-(username, subreddit) resource
records plus the per-subreddit `{ns}:subreddit:{name}:players` index. -/
structure PStore where
  resources : String → String → Option PlayerResources
  index : String → Option (List String)

/-- `Partial<Omit<PlayerResources, 'username' | 'subredditName'>>`. -/
structure PlayerUpdates where
  cinnamon : Option ℚ := none
  seeds : Option ℚ := none
  energy : Option ℚ := none
  totalContributions : Option ℚ := none
  lastActive : Option ℕ := none
deriving DecidableEq, Repr

namespace PlayerResourceService

/-- Write one player's resource record. -/
def setResources (s : PStore) (u sub : String) (r : PlayerResources) : PStore :=
  { s with resources := fun u' sub' =>
      if u' = u ∧ sub' = sub then some r else s.resources u' sub' }

/-- `updatePlayerIndex`: append the username to the subreddit's player index
if not already present. -/
def updatePlayerIndex (s : PStore) (u sub : String) : PStore :=
  let players := (s.index sub).getD []
  if u ∈ players then s
  else { s with index := fun sub' =>
      if sub' = sub then some (players ++ [u]) else s.index sub' }

/-- `savePlayerResources`: stamp `lastActive`, persist the record, then
update the player index. -/
def savePlayerResources (s : PStore) (r : PlayerResources) (now : ℕ) : PStore :=
  let r' := { r with lastActive := now }
  updatePlayerIndex (setResources s r.username r.subredditName r')
    r.username r.subredditName

/-- `validateResourceLimits`: the first violated bound throws. -/
def validateResourceLimits (r : PlayerResources) : Option GameError :=
  if r.cinnamon < 0 then some .cinnamonNegative
  else if MAX_CINNAMON < r.cinnamon then some .cinnamonExceedsMax
  else if r.seeds < 0 then some .seedsNegative
  else if r.energy < 0 then some .energyNegative
  else if r.totalContributions < 0 then some .contributionsNegative
  else none

/-- The spread-merge `{ ...currentResources, ...updates, lastActive: new Date() }`. -/
def applyPlayerUpdates (r : PlayerResources) (u : PlayerUpdates) (now : ℕ) :
    PlayerResources :=
  { r with
    cinnamon := u.cinnamon.getD r.cinnamon
    seeds := u.seeds.getD r.seeds
    energy := u.energy.getD r.energy
    totalContributions := u.totalContributions.getD r.totalContributions
    lastActive := now }

/-- One attempt of `updatePlayerResources`: read (NotFound when absent),
merge, validate limits (throwing on violation), persist. -/
def updatePlayerResourcesAttempt (u sub : String) (upd : PlayerUpdates) (now : ℕ)
    (s : PStore) : Except GameError PlayerResources × PStore :=
  match s.resources u sub with
  | none => (.error (.playerNotFound u sub), s)
  | some cur =>
    let updated := applyPlayerUpdates cur upd now
    match validateResourceLimits updated with
    | some e => (.error e, s)
    | none => (.ok updated, savePlayerResources s updated now)

/-- `updatePlayerResources`, wrapped in the service's `withRetry`. -/
def updatePlayerResources (s : PStore) (u sub : String) (upd : PlayerUpdates)
    (now : ℕ) : Except GameError PlayerResources × PStore × ℕ :=
  withRetryState (updatePlayerResourcesAttempt u sub upd now) s

/-- One attempt of `spendCinnamon`'s retried body: read, reject when the
balance is strictly below the amount, else debit and credit
`totalContributions` through `updatePlayerResources`. -/
def spendCinnamonAttempt (u sub : String) (amount : ℚ) (now : ℕ) (s : PStore) :
    Except GameError PlayerResources × PStore :=
  match s.resources u sub with
  | none => (.error (.playerNotFound u sub), s)
  | some cur =>
    if cur.cinnamon < amount then (.error .insufficientResources, s)
    else
      let r := updatePlayerResources s u sub
        { cinnamon := some (cur.cinnamon - amount)
          totalContributions := some (cur.totalContributions + amount) } now
      (r.1, r.2.1)

/-- `spendCinnamon`: the positivity guard throws before the retried body runs
(0 attempts, store untouched); the body is retried. -/
def spendCinnamon (s : PStore) (u sub : String) (amount : ℚ) (now : ℕ) :
    Except GameError PlayerResources × PStore × ℕ :=
  if amount ≤ 0 then (.error .cinnamonNotPositive, s, 0)
  else withRetryState (spendCinnamonAttempt u sub amount now) s

/-- One attempt of `earnCinnamon`'s retried body: read, clamp the new balance
at `MAX_CINNAMON`, persist through `updatePlayerResources`. -/
def earnCinnamonAttempt (u sub : String) (amount : ℚ) (now : ℕ) (s : PStore) :
    Except GameError PlayerResources × PStore :=
  match s.resources u sub with
  | none => (.error (.playerNotFound u sub), s)
  | some cur =>
    let newCinnamon := min (cur.cinnamon + amount) MAX_CINNAMON
    let r := updatePlayerResources s u sub { cinnamon := some newCinnamon } now
    (r.1, r.2.1)

/-- `earnCinnamon`: the positivity guard (`amount <= 0`) throws before the
retried body runs (0 attempts, store untouched); the body is retried. -/
def earnCinnamon (s : PStore) (u sub : String) (amount : ℚ) (now : ℕ) :
    Except GameError PlayerResources × PStore × ℕ :=
  if amount ≤ 0 then (.error .cinnamonNotPositive, s, 0)
  else withRetryState (earnCinnamonAttempt u sub amount now) s

/-- `awardUpvoteCinnamon`: `upvoteCount * UPVOTE_CINNAMON` through
`earnCinnamon`. -/
def awardUpvoteCinnamon (s : PStore) (u sub : String) (upvoteCount : ℕ)
    (now : ℕ) : Except GameError PlayerResources × PStore × ℕ :=
  earnCinnamon s u sub ((upvoteCount : ℚ) * UPVOTE_CINNAMON) now

/-- `initializePlayerResources`: return the existing record if present, else
create one with the starting cinnamon and persist it. -/
def initializePlayerResources (s : PStore) (u sub : String) (now : ℕ) :
    PlayerResources × PStore :=
  match s.resources u sub with
  | some r => (r, s)
  | none =>
    let r : PlayerResources :=
      { username := u
        subredditName := sub
        cinnamon := STARTING_CINNAMON
        seeds := 0
        energy := 0
        totalContributions := 0
        lastActive := now }
    (r, savePlayerResources s r now)

/-- All persisted cinnamon balances are non-negative. -/
def nonnegCinnamon (s : PStore) : Prop :=
  ∀ u sub r, s.resources u sub = some r → 0 ≤ r.cinnamon

theorem validateResourceLimits_none_nonneg (r : PlayerResources)
    (h : validateResourceLimits r = none) : 0 ≤ r.cinnamon := by
  unfold validateResourceLimits at h
  split_ifs at h with h1 h2 h3 h4 h5
  linarith

theorem updatePlayerIndex_resources (s : PStore) (u sub : String) :
    (updatePlayerIndex s u sub).resources = s.resources := by
  unfold updatePlayerIndex
  dsimp only
  split <;> rfl

theorem savePlayerResources_nonneg (s : PStore) (r : PlayerResources) (now : ℕ)
    (hs : nonnegCinnamon s) (hr : 0 ≤ r.cinnamon) :
    nonnegCinnamon (savePlayerResources s r now) := by
  intro u' sub' r' h
  unfold savePlayerResources at h
  rw [updatePlayerIndex_resources] at h
  unfold setResources at h
  dsimp only at h
  by_cases hk : u' = r.username ∧ sub' = r.subredditName
  · rw [if_pos hk] at h
    cases h
    exact hr
  · rw [if_neg hk] at h
    exact hs u' sub' r' h

theorem updatePlayerResourcesAttempt_nonneg (u sub : String) (upd : PlayerUpdates)
    (now : ℕ) : ∀ s, nonnegCinnamon s →
    nonnegCinnamon (updatePlayerResourcesAttempt u sub upd now s).2 := by
  intro s hs
  unfold updatePlayerResourcesAttempt
  rcases hcur : s.resources u sub with - | cur
  · exact hs
  · dsimp only
    rcases hval : validateResourceLimits (applyPlayerUpdates cur upd now) with - | e
    · exact savePlayerResources_nonneg s _ now hs
        (validateResourceLimits_none_nonneg _ hval)
    · exact hs

theorem updatePlayerResources_nonneg (s : PStore) (u sub : String)
    (upd : PlayerUpdates) (now : ℕ) (hs : nonnegCinnamon s) :
    nonnegCinnamon (updatePlayerResources s u sub upd now).2.1 :=
  withRetryState_preserves _ nonnegCinnamon
    (updatePlayerResourcesAttempt_nonneg u sub upd now) s hs

theorem spendCinnamonAttempt_nonneg (u sub : String) (amount : ℚ) (now : ℕ) :
    ∀ s, nonnegCinnamon s → nonnegCinnamon (spendCinnamonAttempt u sub amount now s).2 := by
  intro s hs
  unfold spendCinnamonAttempt
  rcases hcur : s.resources u sub with - | cur
  · exact hs
  · dsimp only
    by_cases hlt : cur.cinnamon < amount
    · rw [if_pos hlt]
      exact hs
    · rw [if_neg hlt]
      exact updatePlayerResources_nonneg s u sub _ now hs

theorem earnCinnamonAttempt_nonneg (u sub : String) (amount : ℚ) (now : ℕ) :
    ∀ s, nonnegCinnamon s → nonnegCinnamon (earnCinnamonAttempt u sub amount now s).2 := by
  intro s hs
  unfold earnCinnamonAttempt
  rcases hcur : s.resources u sub with - | cur
  · exact hs
  · exact updatePlayerResources_nonneg s u sub _ now hs

/-- `spendCinnamon` on a balance strictly below the amount: the positivity
guard passes, every retried attempt rejects with `InsufficientResources`
leaving the store untouched, and after 3 attempts the wrapped error
surfaces. -/
theorem spendCinnamon_insufficient (s : PStore) (u sub : String) (amount : ℚ)
    (now : ℕ) (r : PlayerResources) (hr : s.resources u sub = some r)
    (h0 : 0 ≤ r.cinnamon) (hlt : r.cinnamon < amount) :
    spendCinnamon s u sub amount now =
      (.error (.redisConnectionError .insufficientResources), s, 3) := by
  have hpos : ¬ amount ≤ 0 := by
    intro hle
    linarith
  unfold spendCinnamon
  rw [if_neg hpos]
  apply withRetryState_error
  unfold spendCinnamonAttempt
  rw [hr]
  dsimp only
  rw [if_pos hlt]

end PlayerResourceService

/-- C6: when a player's stored balance is strictly below the requested
amount, `spendCinnamon` fails with the insufficient-resources error (wrapped
by the retry loop) and the persisted store is left entirely unchanged; and
the persisted cinnamon balance stays non-negative across every
`PlayerResourceService` operation. -/
theorem claim_C6_spend_floor :
    (∀ (s : PStore) (u sub : String) (amount : ℚ) (now : ℕ) (r : PlayerResources),
       s.resources u sub = some r → 0 ≤ r.cinnamon → r.cinnamon < amount →
       PlayerResourceService.spendCinnamon s u sub amount now =
         (.error (.redisConnectionError .insufficientResources), s, 3)) ∧
    (∀ (s : PStore) (u sub : String) (amount : ℚ) (now : ℕ),
       PlayerResourceService.nonnegCinnamon s →
       PlayerResourceService.nonnegCinnamon
         (PlayerResourceService.spendCinnamon s u sub amount now).2.1) ∧
    (∀ (s : PStore) (u sub : String) (amount : ℚ) (now : ℕ),
       PlayerResourceService.nonnegCinnamon s →
       PlayerResourceService.nonnegCinnamon
         (PlayerResourceService.earnCinnamon s u sub amount now).2.1) ∧
    (∀ (s : PStore) (u sub : String) (upd : PlayerUpdates) (now : ℕ),
       PlayerResourceService.nonnegCinnamon s →
       PlayerResourceService.nonnegCinnamon
         (PlayerResourceService.updatePlayerResources s u sub upd now).2.1) ∧
    (∀ (s : PStore) (u sub : String) (now : ℕ),
       PlayerResourceService.nonnegCinnamon s →
       PlayerResourceService.nonnegCinnamon
         (PlayerResourceService.initializePlayerResources s u sub now).2) := by
  refine ⟨PlayerResourceService.spendCinnamon_insufficient, ?_, ?_, ?_, ?_⟩
  · intro s u sub amount now hs
    unfold PlayerResourceService.spendCinnamon
    split
    · exact hs
    · exact withRetryState_preserves _ PlayerResourceService.nonnegCinnamon
        (PlayerResourceService.spendCinnamonAttempt_nonneg u sub amount now) s hs
  · intro s u sub amount now hs
    unfold PlayerResourceService.earnCinnamon
    split
    · exact hs
    · exact withRetryState_preserves _ PlayerResourceService.nonnegCinnamon
        (PlayerResourceService.earnCinnamonAttempt_nonneg u sub amount now) s hs
  · intro s u sub upd now hs
    exact PlayerResourceService.updatePlayerResources_nonneg s u sub upd now hs
  · intro s u sub now hs
    unfold PlayerResourceService.initializePlayerResources
    rcases hcur : s.resources u sub with - | r
    · dsimp only
      apply PlayerResourceService.savePlayerResources_nonneg s _ now hs
      norm_num [STARTING_CINNAMON]
    · exact hs

/-- A player holding 1 cinnamon in `"demo"`. -/
def demoPlayer : PlayerResources :=
  { username := "alice"
    subredditName := "demo"
    cinnamon := 1
    seeds := 0
    energy := 0
    totalContributions := 0
    lastActive := 0 }

/-- A store holding exactly `demoPlayer`. -/
def demoPStore : PStore :=
  { resources := fun u sub =>
      if u = "alice" ∧ sub = "demo" then some demoPlayer else none
    index := fun _ => none }

/-- Witness for C6: spending 5 from a balance of 1 fails and leaves the
store unchanged. -/
theorem claim_C6_spend_floor_witness :
    PlayerResourceService.spendCinnamon demoPStore "alice" "demo" 5 0 =
      (.error (.redisConnectionError .insufficientResources), demoPStore, 3) :=
  claim_C6_spend_floor.1 demoPStore "alice" "demo" 5 0 demoPlayer rfl
    (by norm_num [demoPlayer]) (by norm_num [demoPlayer])

/-- Counterexample to C5 as stated: an `InsufficientResources` failure IS
retried — `spendCinnamon` on a balance of 1 with amount 5 executes its
operation 3 times (not 1) before surfacing the error wrapped in the generic
connection-error message; no error kind surfaces immediately. -/
theorem claim_C5_retry_counterexample :
    (PlayerResourceService.spendCinnamon demoPStore "alice" "demo" 5 0).2.2 = 3 ∧
    (PlayerResourceService.spendCinnamon demoPStore "alice" "demo" 5 0).1 =
      .error (.redisConnectionError .insufficientResources) ∧
    (PlayerResourceService.spendCinnamon demoPStore "alice" "demo" 5 0).2.2 ≠ 1 := by
  refine ⟨rfl, rfl, by decide⟩

/-- C5 (amended): every error raised inside the `withRetry` wrapper is
retried uniformly — 3 attempts with backoff delays of 1000 ms then 2000 ms,
whatever the error kind — after which the last error surfaces wrapped in the
generic connection-error message; a first-attempt success is never retried;
in particular `spendCinnamon`'s insufficient-resources rejection is retried
3 times before surfacing wrapped. -/
theorem claim_C5_retry_policy :
    (∀ e : GameError, withRetry (fun _ => (.error e : Except GameError Unit)) =
      ⟨.error (.redisConnectionError e), 3, [1000, 2000]⟩) ∧
    (∀ a : ℕ, withRetry (fun _ => (.ok a : Except GameError ℕ)) = ⟨.ok a, 1, []⟩) ∧
    (∀ (s : PStore) (u sub : String) (amount : ℚ) (now : ℕ) (r : PlayerResources),
       s.resources u sub = some r → 0 ≤ r.cinnamon → r.cinnamon < amount →
       (PlayerResourceService.spendCinnamon s u sub amount now).2.2 = 3 ∧
       (PlayerResourceService.spendCinnamon s u sub amount now).1 =
         .error (.redisConnectionError .insufficientResources)) := by
  refine ⟨withRetry_error, withRetry_ok, ?_⟩
  intro s u sub amount now r hr h0 hlt
  rw [PlayerResourceService.spendCinnamon_insufficient s u sub amount now r hr h0 hlt]
  exact ⟨rfl, rfl⟩

/-- Witness for C5 (amended), at the concrete 1-cinnamon store. -/
theorem claim_C5_retry_policy_witness :
    (PlayerResourceService.spendCinnamon demoPStore "alice" "demo" 5 0).2.2 = 3 ∧
    (PlayerResourceService.spendCinnamon demoPStore "alice" "demo" 5 0).1 =
      .error (.redisConnectionError .insufficientResources) :=
  claim_C5_retry_policy.2.2 demoPStore "alice" "demo" 5 0 demoPlayer rfl
    (by norm_num [demoPlayer]) (by norm_num [demoPlayer])

/-- C10: `earnCinnamon` rejects every `amount ≤ 0` (including exactly 0)
with the `Cinnamon amount must be positive` error before any store read or
write (0 retry attempts, store untouched); consequently
`awardUpvoteCinnamon` with `upvoteCount = 0` always fails instead of
acting as a no-op. -/
theorem claim_C10_earn_positive_guard :
    (∀ (s : PStore) (u sub : String) (amount : ℚ) (now : ℕ), amount ≤ 0 →
       PlayerResourceService.earnCinnamon s u sub amount now =
         (.error .cinnamonNotPositive, s, 0)) ∧
    (∀ (s : PStore) (u sub : String) (now : ℕ),
       PlayerResourceService.awardUpvoteCinnamon s u sub 0 now =
         (.error .cinnamonNotPositive, s, 0)) := by
  constructor
  · intro s u sub amount now h
    unfold PlayerResourceService.earnCinnamon
    rw [if_pos h]
  · intro s u sub now
    unfold PlayerResourceService.awardUpvoteCinnamon
      PlayerResourceService.earnCinnamon
    rw [if_pos (by norm_num [UPVOTE_CINNAMON])]

/-- Witness for C10: earning exactly 0 at the concrete store fails with the
positivity error, 0 attempts, store untouched. -/
theorem claim_C10_earn_positive_guard_witness :
    PlayerResourceService.earnCinnamon demoPStore "alice" "demo" 0 3 =
      (.error .cinnamonNotPositive, demoPStore, 0) :=
  claim_C10_earn_positive_guard.1 demoPStore "alice" "demo" 0 3 (by norm_num)

/-- A game-state store holding only a fresh `"testsub"` record. -/
def c3Store : GStore :=
  RedisGameService.setGame (fun _ => none) "testsub"
    (RedisGameService.initialRecord "testsub" 0)

/-- A partial update that both raises `totalGrowth` past the level-2
threshold and tries to smuggle in a bogus `treeLevel`. -/
def c3Updates : GameStateUpdates :=
  { totalGrowth := some 60, treeLevel := some 5 }

/-- The state the repository actually persists for `c3Updates`. -/
def c3NewState : GameState :=
  RedisGameService.applyUpdates (RedisGameService.initialRecord "testsub" 0)
    c3Updates 1

/-- Witness for C3: after the concrete update the persisted record carries
the rederived tree level, not the caller's bogus one. -/
theorem claim_C3_treeLevel_invariant_witness :
    RedisGameService.setGame c3Store "testsub" c3NewState "testsub" =
      some c3NewState ∧
    c3NewState.treeLevel = calculateTreeLevel c3NewState.totalGrowth :=
  claim_C3_treeLevel_invariant.1 c3Store "testsub" c3Updates 1 c3NewState
    (RedisGameService.setGame c3Store "testsub" c3NewState) 1 rfl

/-- A game-state store holding only a fresh `"demo"` record. -/
def c4Store : GStore :=
  RedisGameService.setGame (fun _ => none) "demo"
    (RedisGameService.initialRecord "demo" 0)

/-- Witness for C4: one concrete charge action on the fresh `"demo"` store
succeeds (the general conjunct applied at a concrete input). -/
theorem claim_C4_charge_scenario_witness :
    (RedisGameService.recordAction c4Store (fun _ => none)
        { username := "alice", subredditName := "demo", actionType := .charge
          resourcesSpent := 10, growthContributed := 3 } "id" 1).1 =
      .ok (RedisGameService.mkAction
        { username := "alice", subredditName := "demo", actionType := .charge
          resourcesSpent := 10, growthContributed := 3 } "id" 1) := by
  obtain ⟨st', heq, -⟩ :=
    claim_C4_charge_scenario.1 c4Store (fun _ => none) "alice" "demo" "id" 10 3 1
      (RedisGameService.initialRecord "demo" 0) rfl
  rw [heq]

/-- A plant action already sitting in the `"demo"` history 1000 times. -/
def c7Action : ActionHistory :=
  { id := "x"
    username := "bob"
    subredditName := "demo"
    actionType := .plant
    resourcesSpent := 5
    growthContributed := 1.5
    timestamp := 0 }

/-- A history store with exactly 1000 `"demo"` entries. -/
def c7Hists : HStore :=
  RedisGameService.setHist (fun _ => none) "demo" (List.replicate 1000 c7Action)

/-- The 1001st action recorded into `"demo"`. -/
def c7Input : ActionInput :=
  { username := "bob"
    subredditName := "demo"
    actionType := .plant
    resourcesSpent := 5
    growthContributed := 1.5 }

/-- Witness for C7: recording a 1001st entry into a subreddit with 1000
stored entries leaves exactly 1000, newest first, oldest evicted. -/
theorem claim_C7_bounded_history_witness :
    (RedisGameService.recordAction c4Store c7Hists c7Input "newid" 2).2.1.2
        "demo" =
      some (RedisGameService.mkAction c7Input "newid" 2 ::
        ((c7Hists "demo").getD []).dropLast) ∧
    (RedisGameService.mkAction c7Input "newid" 2 ::
      ((c7Hists "demo").getD []).dropLast).length = 1000 :=
  claim_C7_bounded_history.2.2 c4Store c7Hists c7Input "newid" 2
    (RedisGameService.initialRecord "demo" 0) rfl
    (by
      have h : c7Hists c7Input.subredditName =
          some (List.replicate 1000 c7Action) := rfl
      rw [h, Option.getD_some, List.length_replicate])

/-! ## ChronicleGenerationService.processTemplate

The template processor substitutes `\x7b\x7bdotted.path\x7d\x7d` placeholders
(regex `\x7b\x7b(\w+(?:\.\w+)*)\x7d\x7d`, global) by the `String(...)` form of
the value the path resolves to in the context object, leaving unresolvable
placeholders verbatim. Context values are modelled as a JSON-like tree;
property access on a non-object is modelled as `undefined` (the service's
contexts only index into plain objects). The regex scan is modelled by a
deterministic left-to-right scanner, which agrees with the regex because the
pattern's word-runs can never succeed after backtracking: shrinking a `\w+`
leaves a word character where only `.` or `\x7d\x7d` may follow. -/

/-- A JavaScript context value: number, string, or plain object. -/
inductive JSValue where
  | num (n : ℤ)
  | str (s : String)
  | obj (fields : List (String × JSValue))
deriving Repr

namespace ChronicleGenerationService

/-- The regex's `\w`: ASCII letters, digits, underscore. -/
def isWordChar (c : Char) : Bool := c.isAlpha || c.isDigit || c = '_'

/-- JavaScript object property lookup (first binding wins). -/
def lookupField : List (String × JSValue) → String → Option JSValue
  | [], _ => none
  | (k, v) :: rest, key => if k = key then some v else lookupField rest key

/-- `getNestedValue`: `path.split('.').reduce((current, key) => current?.[key], obj)`. -/
def getNestedValue (v : JSValue) (path : List String) : Option JSValue :=
  path.foldl
    (fun cur key =>
      match cur with
      | some (JSValue.obj fields) => lookupField fields key
      | _ => none)
    (some v)

/-- `String(value)` for the modelled values. -/
def valueToString : JSValue → String
  | .num n => toString n
  | .str s => s
  | .obj _ => "[object Object]"

/-- Greedy parse of the regex's `(?:\.\w+)*` chunks; `fuel` bounds the
number of chunks (each consumes at least two characters). -/
def parseWordsAux : ℕ → List Char → List (List Char) × List Char
  | 0, cs => ([], cs)
  | fuel + 1, cs =>
    match cs with
    | '.' :: rest =>
      let w := rest.takeWhile isWordChar
      if w.isEmpty then ([], cs)
      else
        let p := parseWordsAux fuel (rest.dropWhile isWordChar)
        (w :: p.1, p.2)
    | _ => ([], cs)

/-- Greedy parse of the regex's capture `\w+(?:\.\w+)*`: the word-run list
and the remaining characters, or `none` when no word character starts. -/
def parsePath (cs : List Char) : Option (List (List Char) × List Char) :=
  let w := cs.takeWhile isWordChar
  if w.isEmpty then none
  else
    let p := parseWordsAux cs.length (cs.dropWhile isWordChar)
    some (w :: p.1, p.2)

/-- Attempt the full placeholder pattern at the current position: two opening
braces, a dotted path, two closing braces. -/
def matchPlaceholder : List Char → Option (List (List Char) × List Char)
  | '{' :: '{' :: rest =>
    match parsePath rest with
    | some (ws, '}' :: '}' :: r) => some (ws, r)
    | _ => none
  | _ => none

/-- The `.w` chunks of a dotted path, as text. -/
def dotChunks : List (List Char) → List Char
  | [] => []
  | w :: rest => '.' :: (w ++ dotChunks rest)

/-- The matched path text, reconstructed from its word runs. -/
def renderPath : List (List Char) → List Char
  | [] => []
  | w :: rest => w ++ dotChunks rest

/-- The replace scan: copy characters until a placeholder matches; replace it
by the string form of the resolved value, or emit the matched text verbatim
when the path resolves to `undefined`; continue after the match. `fuel`
bounds the number of steps (every step consumes at least one character). -/
def processGo (ctx : List (String × JSValue)) : ℕ → List Char → List Char
  | 0, cs => cs
  | _ + 1, [] => []
  | fuel + 1, c :: cs =>
    match matchPlaceholder (c :: cs) with
    | some (ws, rest) =>
      match getNestedValue (.obj ctx) (ws.map (fun w => String.mk w)) with
      | some v => (valueToString v).data ++ processGo ctx fuel rest
      | none => '{' :: '{' :: (renderPath ws ++ '}' :: '}' :: processGo ctx fuel rest)
    | none => c :: processGo ctx fuel cs

/-- `processTemplate(template, context)`. -/
def processTemplate (template : String) (ctx : List (String × JSValue)) : String :=
  String.mk (processGo ctx template.data.length template.data)

/-- A well-formed placeholder template, as alternating plain-text/placeholder
segments followed by a plain tail. -/
def renderTemplate : List (List Char × List (List Char)) → List Char → List Char
  | [], tail => tail
  | (pre, ws) :: rest, tail =>
    pre ++ '{' :: '{' :: (renderPath ws ++ '}' :: '}' :: renderTemplate rest tail)

/-- The expected output: each resolvable placeholder replaced by the string
form of its value, each unresolvable one left verbatim. -/
def substTemplate (ctx : List (String × JSValue)) :
    List (List Char × List (List Char)) → List Char → List Char
  | [], tail => tail
  | (pre, ws) :: rest, tail =>
    pre ++
      (match getNestedValue (.obj ctx) (ws.map (fun w => String.mk w)) with
       | some v => (valueToString v).data
       | none => '{' :: '{' :: (renderPath ws ++ ['}', '}'])) ++
      substTemplate ctx rest tail

end ChronicleGenerationService

/-- The context of the spec's template-rendering example:
`{gameState: {treeLevel: 3}}`. -/
def exampleContext : List (String × JSValue) :=
  [("gameState", JSValue.obj [("treeLevel", JSValue.num 3)])]

namespace ChronicleGenerationService

/-- A word run followed by a non-word character splits cleanly under
`takeWhile`/`dropWhile`. -/
theorem takeWhile_append_all (w r : List Char)
    (hw : ∀ c ∈ w, isWordChar c = true)
    (hr : ∀ c, r.head? = some c → isWordChar c = false) :
    (w ++ r).takeWhile isWordChar = w ∧ (w ++ r).dropWhile isWordChar = r := by
  induction w with
  | nil =>
    simp only [List.nil_append]
    cases r with
    | nil => simp
    | cons c r' =>
      have hc := hr c rfl
      simp [List.takeWhile_cons, List.dropWhile_cons, hc]
  | cons a w' ih =>
    have ha := hw a (by simp)
    have ih' := ih (fun c hc => hw c (by simp [hc]))
    simp [List.takeWhile_cons, List.dropWhile_cons, ha, ih'.1, ih'.2]

theorem dotChunks_length_ge (ws : List (List Char)) :
    ws.length ≤ (dotChunks ws).length := by
  induction ws with
  | nil => simp [dotChunks]
  | cons w rest ih => simp [dotChunks]; omega

/-- On a chunk text followed by a suffix that starts with neither a dot nor a
word character, the greedy chunk parser recovers exactly the chunks. -/
theorem parseWordsAux_spec (suffix : List Char)
    (hs1 : ∀ c, suffix.head? = some c → c ≠ '.')
    (hs2 : ∀ c, suffix.head? = some c → isWordChar c = false) :
    ∀ (ws : List (List Char)) (fuel : ℕ),
    (∀ w ∈ ws, w ≠ [] ∧ ∀ c ∈ w, isWordChar c = true) →
    ws.length ≤ fuel →
    parseWordsAux fuel (dotChunks ws ++ suffix) = (ws, suffix) := by
  intro ws
  induction ws with
  | nil =>
    intro fuel _ _
    simp only [dotChunks, List.nil_append]
    cases fuel with
    | zero => rfl
    | succ f =>
      cases hsfx : suffix with
      | nil => rfl
      | cons c cs =>
        have hc : c ≠ '.' := hs1 c (by rw [hsfx]; rfl)
        simp only [parseWordsAux]
        split
        · next rest heq =>
            exfalso
            apply hc
            injection heq with h1 _
        · rfl
  | cons w rest ih =>
    intro fuel hws hlen
    cases fuel with
    | zero => simp at hlen
    | succ f =>
      have hw := hws w (by simp)
      have hhead : ∀ c, (dotChunks rest ++ suffix).head? = some c →
          isWordChar c = false := by
        intro c hc
        cases rest with
        | nil =>
          simp only [dotChunks, List.nil_append] at hc
          exact hs2 c hc
        | cons w2 r2 =>
          simp only [dotChunks, List.cons_append, List.head?_cons] at hc
          cases hc
          decide
      have htw := takeWhile_append_all w (dotChunks rest ++ suffix) hw.2 hhead
      have hne : w.isEmpty = false := by
        cases w with
        | nil => exact absurd rfl hw.1
        | cons a w' => rfl
      simp only [dotChunks, List.cons_append, List.append_assoc]
      simp only [parseWordsAux]
      rw [htw.1, htw.2, hne]
      simp only [Bool.false_eq_true, if_false]
      rw [ih f (fun w' hw' => hws w' (by simp [hw'])) (by simp at hlen ⊢; omega)]

/-- The greedy capture parser recovers a well-formed dotted path followed by
a suffix that starts with neither a dot nor a word character. -/
theorem parsePath_spec (w : List Char) (rest : List (List Char))
    (suffix : List Char)
    (hw : w ≠ [] ∧ ∀ c ∈ w, isWordChar c = true)
    (hrest : ∀ w' ∈ rest, w' ≠ [] ∧ ∀ c ∈ w', isWordChar c = true)
    (hs1 : ∀ c, suffix.head? = some c → c ≠ '.')
    (hs2 : ∀ c, suffix.head? = some c → isWordChar c = false) :
    parsePath (renderPath (w :: rest) ++ suffix) = some (w :: rest, suffix) := by
  have hhead : ∀ c, (dotChunks rest ++ suffix).head? = some c →
      isWordChar c = false := by
    intro c hc
    cases rest with
    | nil =>
      simp only [dotChunks, List.nil_append] at hc
      exact hs2 c hc
    | cons w2 r2 =>
      simp only [dotChunks, List.cons_append, List.head?_cons] at hc
      cases hc
      decide
  have htw := takeWhile_append_all w (dotChunks rest ++ suffix) hw.2 hhead
  have hne : w.isEmpty = false := by
    cases w with
    | nil => exact absurd rfl hw.1
    | cons a w' => rfl
  unfold parsePath renderPath
  simp only [List.append_assoc]
  rw [htw.1, htw.2, hne]
  simp only [Bool.false_eq_true, if_false]
  rw [parseWordsAux_spec suffix hs1 hs2 rest _
    (fun w' hw' => hrest w' hw')
    (le_trans (dotChunks_length_ge rest) (by simp only [List.length_append]; omega))]

/-- The full placeholder pattern matches a well-formed placeholder. -/
theorem matchPlaceholder_spec (w : List Char) (rest : List (List Char))
    (r : List Char)
    (hw : w ≠ [] ∧ ∀ c ∈ w, isWordChar c = true)
    (hrest : ∀ w' ∈ rest, w' ≠ [] ∧ ∀ c ∈ w', isWordChar c = true) :
    matchPlaceholder ('{' :: '{' :: (renderPath (w :: rest) ++ '}' :: '}' :: r)) =
      some (w :: rest, r) := by
  simp only [matchPlaceholder]
  rw [parsePath_spec w rest ('}' :: '}' :: r) hw hrest
    (by intro c hc; cases hc; decide)
    (by intro c hc; cases hc; decide)]
  rfl

/-- No placeholder can start at a character other than an opening brace. -/
theorem matchPlaceholder_none (c : Char) (cs : List Char) (hc : c ≠ '{') :
    matchPlaceholder (c :: cs) = none := by
  unfold matchPlaceholder
  split
  · next heq =>
      exfalso
      apply hc
      injection heq with h1 _
  · rfl

theorem processGo_nil (ctx : List (String × JSValue)) (fuel : ℕ) :
    processGo ctx fuel [] = [] := by
  cases fuel <;> rfl

/-- The scan copies brace-free text verbatim, spending one unit of fuel per
character. -/
theorem processGo_append_plain (ctx : List (String × JSValue)) :
    ∀ (pre cs : List Char) (fuel : ℕ), (∀ c ∈ pre, c ≠ '{') →
    processGo ctx (pre.length + fuel) (pre ++ cs) = pre ++ processGo ctx fuel cs := by
  intro pre
  induction pre with
  | nil =>
    intro cs fuel _
    simp
  | cons c pre' ih =>
    intro cs fuel hpre
    have hc : c ≠ '{' := hpre c (by simp)
    have harith : (c :: pre').length + fuel = (pre'.length + fuel) + 1 := by
      simp
      omega
    rw [harith]
    show processGo ctx ((pre'.length + fuel) + 1) (c :: (pre' ++ cs)) = _
    simp only [processGo, matchPlaceholder_none c _ hc]
    rw [ih cs fuel (fun c' hc' => hpre c' (by simp [hc']))]
    rfl

/-- Length of a rendered template, for fuel accounting. -/
theorem renderTemplate_length (segs : List (List Char × List (List Char)))
    (tail : List Char) :
    (renderTemplate segs tail).length =
      (segs.map (fun p => p.1.length + (renderPath p.2).length + 4)).sum +
        tail.length := by
  induction segs with
  | nil => simp [renderTemplate]
  | cons seg rest ih =>
    obtain ⟨pre, ws⟩ := seg
    simp [renderTemplate, ih]
    omega

/-- Brace-free text is copied unchanged whenever the fuel covers it. -/
theorem processGo_plain (ctx : List (String × JSValue)) (tail : List Char)
    (fuel : ℕ) (htail : ∀ c ∈ tail, c ≠ '{') (hlen : tail.length ≤ fuel) :
    processGo ctx fuel tail = tail := by
  have h := processGo_append_plain ctx tail [] (fuel - tail.length) htail
  rw [List.append_nil] at h
  have harith : tail.length + (fuel - tail.length) = fuel := by omega
  rw [harith] at h
  rw [h, processGo_nil]
  simp

/-- The scan on a well-formed placeholder template produces exactly the
placeholder-by-placeholder substitution. -/
theorem processGo_renderTemplate (ctx : List (String × JSValue)) :
    ∀ (segs : List (List Char × List (List Char))) (tail : List Char) (fuel : ℕ),
    (∀ p ∈ segs, (∀ c ∈ p.1, c ≠ '{') ∧ p.2 ≠ [] ∧
      ∀ w ∈ p.2, w ≠ [] ∧ ∀ c ∈ w, isWordChar c = true) →
    (∀ c ∈ tail, c ≠ '{') →
    (renderTemplate segs tail).length ≤ fuel →
    processGo ctx fuel (renderTemplate segs tail) = substTemplate ctx segs tail := by
  intro segs
  induction segs with
  | nil =>
    intro tail fuel _ htail hlen
    simp only [renderTemplate, substTemplate]
    simp only [renderTemplate] at hlen
    exact processGo_plain ctx tail fuel htail hlen
  | cons seg rest ih =>
    intro tail fuel hsegs htail hlen
    obtain ⟨pre, ws⟩ := seg
    obtain ⟨hpre, hwsne, hws⟩ := hsegs (pre, ws) (by simp)
    obtain ⟨w, ws', rfl⟩ : ∃ w ws', ws = w :: ws' := by
      cases ws with
      | nil => exact absurd rfl hwsne
      | cons w ws' => exact ⟨w, ws', rfl⟩
    have hRlen := renderTemplate_length rest tail
    rw [renderTemplate_length] at hlen
    simp only [List.map_cons, List.sum_cons] at hlen
    show processGo ctx fuel
        (pre ++ '{' :: '{' :: (renderPath (w :: ws') ++ '}' :: '}' ::
          renderTemplate rest tail)) = _
    have hk : fuel = pre.length + (fuel - pre.length) := by omega
    rw [hk, processGo_append_plain ctx pre _ _ hpre]
    have hm : fuel - pre.length = (fuel - pre.length - 1) + 1 := by omega
    rw [hm]
    simp only [processGo]
    rw [matchPlaceholder_spec w ws' (renderTemplate rest tail)
      (hws w (by simp)) (fun w' hw' => hws w' (by simp [hw']))]
    have hih := ih tail (fuel - pre.length - 1)
      (fun p hp => hsegs p (by simp [hp])) htail
      (by rw [hRlen]; omega)
    simp only [substTemplate]
    rcases hv : getNestedValue (.obj ctx)
        ((w :: ws').map (fun w => String.mk w)) with - | v
    · simp only [hv, hih]
      simp [List.append_assoc]
    · simp only [hv, hih]
      simp [List.append_assoc]

end ChronicleGenerationService

/-- C9: template processing replaces each `\x7b\x7bdotted.path\x7d\x7d`
placeholder whose path resolves to a defined value with the string form of
that value — on the spec's example context the template
`"Level \x7b\x7bgameState.treeLevel\x7d\x7d"` renders exactly `"Level 3"` —
and leaves every placeholder whose path does not resolve verbatim
(`"\x7b\x7bmissing.path\x7d\x7d"` stays unchanged); and in general, every
well-formed placeholder template renders to its placeholder-by-placeholder
substitution under any context. -/
theorem claim_C9_template_processing :
    (ChronicleGenerationService.processTemplate
        "Level \x7b\x7bgameState.treeLevel\x7d\x7d" exampleContext =
      "Level 3") ∧
    (ChronicleGenerationService.processTemplate
        "\x7b\x7bmissing.path\x7d\x7d" exampleContext =
      "\x7b\x7bmissing.path\x7d\x7d") ∧
    (∀ (ctx : List (String × JSValue))
       (segs : List (List Char × List (List Char))) (tail : List Char),
       (∀ p ∈ segs, (∀ c ∈ p.1, c ≠ '{') ∧ p.2 ≠ [] ∧
         ∀ w ∈ p.2, w ≠ [] ∧ ∀ c ∈ w,
           ChronicleGenerationService.isWordChar c = true) →
       (∀ c ∈ tail, c ≠ '{') →
       ChronicleGenerationService.processTemplate
           (String.mk (ChronicleGenerationService.renderTemplate segs tail)) ctx =
         String.mk (ChronicleGenerationService.substTemplate ctx segs tail)) := by
  refine ⟨by decide, by decide, ?_⟩
  intro ctx segs tail hsegs htail
  unfold ChronicleGenerationService.processTemplate
  exact congrArg String.mk
    (ChronicleGenerationService.processGo_renderTemplate ctx segs tail _
      hsegs htail (le_refl _))

/-- Witness for C9's general conjunct: a one-placeholder template over the
context `{top: "X"}` renders to its substitution. -/
theorem claim_C9_template_processing_witness :
    ChronicleGenerationService.processTemplate
        (String.mk (ChronicleGenerationService.renderTemplate
          [("A ".data, ["top".data])] " B".data)) [("top", JSValue.str "X")] =
      String.mk (ChronicleGenerationService.substTemplate
        [("top", JSValue.str "X")] [("A ".data, ["top".data])] " B".data) :=
  claim_C9_template_processing.2.2 [("top", JSValue.str "X")]
    [("A ".data, ["top".data])] " B".data (by decide) (by decide)

end Cinnarito
